import Mathlib

/-!
# Verification of the crowdnet training pipelines

A shallow embedding of the loss computations, metric reporting, checkpoint
scheduling, console interface, gradient penalty, annotation importer and
trial-name cleanup of the crowdnet repository (src/train_cnn.py,
src/train_gan.py, src/train_srgan.py, src/interface.py, src/vatic_importer.py),
together with theorems settling the specification claims about them.

Tensors are embedded as nested lists of rationals (batch, height, width);
reals are used where a Euclidean norm is required.  Machine floating point is
idealised as exact arithmetic; every definition mirrors the corresponding
source expression operation by operation.
-/

namespace Crowdnet

/-! ## Tensor embedding

A batch tensor of rank 3 (batch, height, width) is a list of matrices; torch
operations used by the training scripts are embedded one by one. -/

/-- A 2-D tensor (height, width). -/
abbrev Map2 : Type := List (List ℚ)

/-- A 3-D tensor (batch, height, width). -/
abbrev T3 : Type := List Map2

/-- A 1-D tensor (batch). -/
abbrev T1 : Type := List ℚ

/-- Elementwise binary operation on rank-3 tensors (torch broadcasting is not
needed: the scripts only combine same-shaped tensors). -/
def t3zip (f : ℚ → ℚ → ℚ) (a b : T3) : T3 :=
  List.zipWith (List.zipWith (List.zipWith f)) a b

/-- Elementwise map on rank-3 tensors. -/
def t3map (f : ℚ → ℚ) (t : T3) : T3 :=
  t.map (fun m => m.map (fun r => r.map f))

/-- Sum along dimension 1 of a single matrix: `torch.sum(dim=1)` restricted to
one batch element turns an `H × W` matrix into the list of its `W` column
sums.  It folds the rows together with elementwise addition. -/
def colSums : Map2 → List ℚ
  | [] => []
  | r :: rs => rs.foldl (fun acc row => List.zipWith (· + ·) acc row) r

/-- `t.sum(1)` on a rank-3 tensor: sums out the height dimension. -/
def t3sum1 (t : T3) : Map2 :=
  t.map colSums

/-- `t.sum(1)` on a rank-2 tensor (batch, width): sums out the width
dimension, leaving one scalar per batch element. -/
def t2sum1 (t : Map2) : T1 :=
  t.map List.sum

/-- `t.mean()` on a rank-1 tensor.  For the empty tensor this is `0/0 = 0`
in `ℚ`; the data loader contract guarantees non-empty batches. -/
def t1mean (t : T1) : ℚ :=
  t.sum / t.length

/-! ## Loss computations

`torch.abs(predicted_labels - labels).pow(p).sum(1).sum(1).mean()` and the
count loss, exactly as written in src/train_cnn.py:80-82,
src/train_gan.py:72-74 and src/train_srgan.py:120-122. -/

/-- `density_loss = torch.abs(predicted_labels - labels).pow(settings.loss_order).sum(1).sum(1).mean()`. -/
def density_loss (p : ℕ) (predicted_labels labels : T3) : ℚ :=
  t1mean (t2sum1 (t3sum1 (t3map (fun x => |x| ^ p) (t3zip (· - ·) predicted_labels labels))))

/-- `labels.sum(1).sum(1)`: the per-example true counts as the scripts
compute them. -/
def true_counts (labels : T3) : T1 :=
  t2sum1 (t3sum1 labels)

/-- `count_loss = torch.abs(predicted_counts - labels.sum(1).sum(1)).pow(settings.loss_order).mean()`. -/
def count_loss (p : ℕ) (predicted_counts : T1) (labels : T3) : ℚ :=
  t1mean (List.zipWith (fun c t => |c - t| ^ p) predicted_counts (true_counts labels))

/-- `loss = count_loss + (density_loss * 10)`. -/
def combined_loss (p : ℕ) (predicted_labels labels : T3) (predicted_counts : T1) : ℚ :=
  count_loss p predicted_counts labels + density_loss p predicted_labels labels * 10

/-! Spec-side formulations, written from the claim's words: the density loss
is the mean over the batch of the spatial sum of `|predicted − true|^p`, the
count loss the mean over the batch of `|predicted count − true count|^p`. -/

/-- The spatial sum of a matrix: the sum of all its entries, row by row. -/
def spatialSum (m : Map2) : ℚ :=
  (m.map List.sum).sum

/-- Spec-side density loss: mean over the batch of the spatial sum of
`|predicted − true|^p`. -/
def density_loss_spec (p : ℕ) (predicted_labels labels : T3) : ℚ :=
  t1mean (List.zipWith
    (fun pm tm => spatialSum (List.zipWith (List.zipWith (fun a b => |a - b| ^ p)) pm tm))
    predicted_labels labels)

/-- Spec-side count loss: mean over the batch of `|predicted count − true
count|^p`, the true count being the spatial sum of the true density map. -/
def count_loss_spec (p : ℕ) (predicted_counts : T1) (labels : T3) : ℚ :=
  t1mean (List.zipWith (fun c tm => |c - spatialSum tm| ^ p) predicted_counts labels)

/-- A matrix is rectangular when all rows share the length of the first
row.  Real tensors always are. -/
def Rect (m : Map2) : Prop :=
  ∀ r ∈ m, r.length = (m.headD []).length

instance (m : Map2) : Decidable (Rect m) := by
  unfold Rect; infer_instance

/-! ### Sums of columns versus sums of rows -/

theorem zipWith_add_sum (a b : List ℚ) (h : a.length = b.length) :
    (List.zipWith (· + ·) a b).sum = a.sum + b.sum := by
  induction a generalizing b with
  | nil => cases b with
    | nil => simp
    | cons y ys => simp at h
  | cons x xs ih =>
    cases b with
    | nil => simp at h
    | cons y ys =>
      simp only [List.zipWith_cons_cons, List.sum_cons]
      rw [ih ys (by simpa using h)]
      ring

theorem zipWith_add_length (a b : List ℚ) (h : a.length = b.length) :
    (List.zipWith (· + ·) a b).length = a.length := by
  simp [List.length_zipWith, h]

theorem colSums_foldl_sum (rs : List (List ℚ)) (acc : List ℚ)
    (h : ∀ r ∈ rs, r.length = acc.length) :
    (rs.foldl (fun a row => List.zipWith (· + ·) a row) acc).sum
      = acc.sum + (rs.map List.sum).sum := by
  induction rs generalizing acc with
  | nil => simp
  | cons r rs ih =>
    simp only [List.foldl_cons, List.map_cons, List.sum_cons]
    have hr : r.length = acc.length := h r (by simp)
    rw [ih (List.zipWith (· + ·) acc r)]
    · rw [zipWith_add_sum acc r hr.symm]
      ring
    · intro r' hr'
      rw [zipWith_add_length acc r hr.symm]
      exact h r' (by simp [hr'])

/-- For a rectangular matrix, summing the column sums agrees with summing the
row sums: `m.sum(1)` followed by a total sum equals the spatial sum. -/
theorem colSums_sum_eq_spatialSum (m : Map2) (h : Rect m) :
    (colSums m).sum = spatialSum m := by
  cases m with
  | nil => simp [colSums, spatialSum]
  | cons r rs =>
    simp only [colSums, spatialSum, List.map_cons, List.sum_cons]
    rw [colSums_foldl_sum rs r]
    intro r' hr'
    have h1 := h r' (by simp [hr'])
    simpa using h1

theorem exists_of_mem_zipWith {α β γ : Type} {f : α → β → γ} {a : List α}
    {b : List β} {c : γ} (h : c ∈ List.zipWith f a b) :
    ∃ x ∈ a, ∃ y ∈ b, c = f x y := by
  induction a generalizing b with
  | nil => simp at h
  | cons x xs ih =>
    cases b with
    | nil => simp at h
    | cons y ys =>
      simp only [List.zipWith_cons_cons, List.mem_cons] at h
      rcases h with h | h
      · exact ⟨x, by simp, y, by simp, h⟩
      · obtain ⟨u, hu, v, hv, rfl⟩ := ih h
        exact ⟨u, by simp [hu], v, by simp [hv], rfl⟩

theorem zipWith_congr_mem {α β γ : Type} (f g : α → β → γ) (a : List α) (b : List β)
    (h : ∀ x ∈ a, ∀ y ∈ b, f x y = g x y) :
    List.zipWith f a b = List.zipWith g a b := by
  induction a generalizing b with
  | nil => simp
  | cons x xs ih =>
    cases b with
    | nil => simp
    | cons y ys =>
      simp only [List.zipWith_cons_cons]
      rw [h x (by simp) y (by simp), ih ys (fun u hu v hv => h u (by simp [hu]) v (by simp [hv]))]

/-- Elementwise combination of two rectangular matrices is rectangular. -/
theorem rect_zipWith (f : ℚ → ℚ → ℚ) {a b : Map2} (ha : Rect a) (hb : Rect b) :
    Rect (List.zipWith (List.zipWith f) a b) := by
  cases a with
  | nil => intro r hr; simp at hr
  | cons x as =>
    cases b with
    | nil => intro r hr; simp at hr
    | cons y bs =>
      intro r hr
      simp only [List.zipWith_cons_cons, List.headD_cons] at hr ⊢
      rcases List.mem_cons.mp hr with h | h
      · rw [h]
      · obtain ⟨u, hu, v, hv, rfl⟩ := exists_of_mem_zipWith h
        have h1 : u.length = x.length := by
          simpa using ha u (List.mem_cons_of_mem _ hu)
        have h2 : v.length = y.length := by
          simpa using hb v (List.mem_cons_of_mem _ hv)
        simp [List.length_zipWith, h1, h2]

theorem density_loss_eq_spec (p : ℕ) (predicted_labels labels : T3)
    (hp : ∀ m ∈ predicted_labels, Rect m) (hl : ∀ m ∈ labels, Rect m) :
    density_loss p predicted_labels labels = density_loss_spec p predicted_labels labels := by
  unfold density_loss density_loss_spec t2sum1 t3sum1 t3map t3zip
  congr 1
  rw [List.map_map, List.map_map, List.map_zipWith]
  refine zipWith_congr_mem _ _ _ _ (fun pm hpm tm htm => ?_)
  simp only [Function.comp_apply]
  have hmat : (List.zipWith (List.zipWith (· - ·)) pm tm).map
      (fun r => r.map (fun x => |x| ^ p))
      = List.zipWith (List.zipWith (fun a b => |a - b| ^ p)) pm tm := by
    rw [List.map_zipWith]
    refine zipWith_congr_mem _ _ _ _ (fun rp _ rt _ => ?_)
    rw [List.map_zipWith]
  rw [hmat]
  exact colSums_sum_eq_spatialSum _ (rect_zipWith _ (hp pm hpm) (hl tm htm))

theorem count_loss_eq_spec (p : ℕ) (predicted_counts : T1) (labels : T3)
    (hl : ∀ m ∈ labels, Rect m) :
    count_loss p predicted_counts labels = count_loss_spec p predicted_counts labels := by
  unfold count_loss count_loss_spec true_counts t2sum1 t3sum1
  congr 1
  rw [List.map_map, List.zipWith_map_right]
  refine zipWith_congr_mem _ _ _ _ (fun c _ tm htm => ?_)
  simp only [Function.comp_apply]
  rw [colSums_sum_eq_spatialSum _ (hl tm htm)]

/-- C4: in every training-loop variant the combined supervised loss equals
`count_loss + 10 × density_loss`, where the density loss is the batch mean of
the spatial sum of `|predicted density − true density|^p` and the count loss
the batch mean of `|predicted count − true count|^p`, for the loss order `p`
(src/train_cnn.py:80-82, src/train_gan.py:72-74, src/train_srgan.py:120-122). -/
theorem combined_loss_eq_count_plus_ten_density (p : ℕ)
    (predicted_labels labels : T3) (predicted_counts : T1)
    (hp : ∀ m ∈ predicted_labels, Rect m) (hl : ∀ m ∈ labels, Rect m) :
    combined_loss p predicted_labels labels predicted_counts
      = count_loss_spec p predicted_counts labels
        + 10 * density_loss_spec p predicted_labels labels := by
  unfold combined_loss
  rw [density_loss_eq_spec p predicted_labels labels hp hl,
    count_loss_eq_spec p predicted_counts labels hl]
  ring

/-- Witness for C4 at a concrete batch: one example with a `1 × 2` density
map; predicted density `[3, 4]`, true density `[1, 6]`, predicted count `5`. -/
theorem combined_loss_eq_count_plus_ten_density_witness :
    (∀ m ∈ ([[[3, 4]]] : T3), Rect m) ∧ (∀ m ∈ ([[[1, 6]]] : T3), Rect m) ∧
    combined_loss 1 [[[3, 4]]] [[[1, 6]]] [5]
      = count_loss_spec 1 [5] [[[1, 6]]] + 10 * density_loss_spec 1 [[[3, 4]]] [[[1, 6]]] :=
  ⟨by decide, by decide,
    combined_loss_eq_count_plus_ten_density 1 [[[3, 4]]] [[[1, 6]]] [5] (by decide) (by decide)⟩

/-! ### Non-negativity and the zero characterization of the losses (C6) -/

theorem foldl_zipAdd_nonneg (rs : List (List ℚ)) (acc : List ℚ)
    (hacc : ∀ x ∈ acc, 0 ≤ x) (hrs : ∀ r ∈ rs, ∀ x ∈ r, 0 ≤ x) :
    ∀ x ∈ rs.foldl (fun a row => List.zipWith (· + ·) a row) acc, 0 ≤ x := by
  induction rs generalizing acc with
  | nil => simpa using hacc
  | cons r rs ih =>
    simp only [List.foldl_cons]
    refine ih _ (fun x hx => ?_) (fun r' hr' => hrs r' (by simp [hr']))
    obtain ⟨u, hu, v, hv, rfl⟩ := exists_of_mem_zipWith hx
    exact add_nonneg (hacc u hu) (hrs r (by simp) v hv)

theorem colSums_nonneg {m : Map2} (h : ∀ r ∈ m, ∀ x ∈ r, 0 ≤ x) :
    ∀ x ∈ colSums m, 0 ≤ x := by
  cases m with
  | nil => simp [colSums]
  | cons r rs =>
    simp only [colSums]
    exact foldl_zipAdd_nonneg rs r (h r (by simp)) (fun r' hr' => h r' (by simp [hr']))

theorem t1mean_nonneg {t : T1} (h : ∀ x ∈ t, 0 ≤ x) : 0 ≤ t1mean t :=
  div_nonneg (List.sum_nonneg h) (by positivity)

theorem sum_eq_zero_iff_of_nonneg {t : List ℚ} (h : ∀ x ∈ t, 0 ≤ x) :
    t.sum = 0 ↔ ∀ x ∈ t, x = 0 := by
  induction t with
  | nil => simp
  | cons x xs ih =>
    simp only [List.sum_cons, List.mem_cons]
    rw [add_eq_zero_iff_of_nonneg (h x (by simp)) (List.sum_nonneg (fun y hy => h y (by simp [hy]))),
      ih (fun y hy => h y (by simp [hy]))]
    constructor
    · rintro ⟨h0, hall⟩ y (rfl | hy)
      · exact h0
      · exact hall y hy
    · intro hall
      exact ⟨hall x (Or.inl rfl), fun y hy => hall y (Or.inr hy)⟩

theorem t1mean_eq_zero_iff {t : T1} (h : ∀ x ∈ t, 0 ≤ x) :
    t1mean t = 0 ↔ ∀ x ∈ t, x = 0 := by
  cases t with
  | nil => simp [t1mean]
  | cons x xs =>
    unfold t1mean
    rw [div_eq_zero_iff]
    constructor
    · rintro (hs | hlen)
      · exact (sum_eq_zero_iff_of_nonneg h).mp hs
      · exfalso
        simp only [List.length_cons] at hlen
        push_cast at hlen
        have h0 : (0 : ℚ) ≤ (xs.length : ℚ) := Nat.cast_nonneg _
        linarith
    · intro hall
      exact Or.inl ((sum_eq_zero_iff_of_nonneg h).mpr hall)

theorem zipWith_eq_map_zip {α β γ : Type} (f : α → β → γ) (a : List α) (b : List β) :
    List.zipWith f a b = (a.zip b).map (fun pr => f pr.1 pr.2) := by
  induction a generalizing b with
  | nil => simp
  | cons x xs ih =>
    cases b with
    | nil => simp
    | cons y ys => simp [List.zip_cons_cons, ih]

theorem density_loss_nonneg (p : ℕ) (predicted_labels labels : T3) :
    0 ≤ density_loss p predicted_labels labels := by
  unfold density_loss
  refine t1mean_nonneg (fun x hx => ?_)
  simp only [t2sum1, t3sum1, t3map, List.mem_map, List.map_map] at hx
  obtain ⟨m0, _, rfl⟩ := hx
  simp only [Function.comp_apply]
  refine List.sum_nonneg (colSums_nonneg (fun r hr x hxr => ?_))
  obtain ⟨r0, _, rfl⟩ := List.mem_map.mp hr
  obtain ⟨y, _, rfl⟩ := List.mem_map.mp hxr
  positivity

theorem count_loss_nonneg (p : ℕ) (predicted_counts : T1) (labels : T3) :
    0 ≤ count_loss p predicted_counts labels := by
  unfold count_loss
  refine t1mean_nonneg (fun x hx => ?_)
  obtain ⟨u, _, v, _, rfl⟩ := exists_of_mem_zipWith hx
  positivity

/-- C6: for every batch and every loss order `p ≥ 1`, the density loss and the
count loss computed by the training loops are non-negative, and the count loss
vanishes exactly when the predicted count equals the true count (the spatial
sum of the true density map, as the scripts compute it) for every example of
the batch (src/train_cnn.py:80-81). -/
theorem losses_nonneg_and_count_loss_zero_iff (p : ℕ)
    (predicted_labels labels : T3) (predicted_counts : T1)
    (hp : 1 ≤ p) (_hlen : predicted_counts.length = labels.length) :
    0 ≤ density_loss p predicted_labels labels ∧
    0 ≤ count_loss p predicted_counts labels ∧
    (count_loss p predicted_counts labels = 0 ↔
      ∀ pr ∈ predicted_counts.zip (true_counts labels), pr.1 = pr.2) := by
  refine ⟨density_loss_nonneg p predicted_labels labels,
    count_loss_nonneg p predicted_counts labels, ?_⟩
  unfold count_loss
  rw [t1mean_eq_zero_iff (fun x hx => by
    obtain ⟨u, _, v, _, rfl⟩ := exists_of_mem_zipWith hx
    positivity)]
  rw [zipWith_eq_map_zip]
  simp only [List.mem_map, forall_exists_index, and_imp]
  constructor
  · intro h pr hpr
    have h0 := h _ pr hpr rfl
    have hne : p ≠ 0 := by omega
    have habs : |pr.1 - pr.2| = 0 := by
      have := pow_eq_zero_iff hne |>.mp h0
      exact this
    have := abs_eq_zero.mp habs
    linarith [sub_eq_zero.mp this]
  · rintro h x pr hpr rfl
    have heq := h pr hpr
    rw [sub_eq_zero.mpr heq, abs_zero]
    exact zero_pow (by omega)

/-- Witness for C6 at a concrete batch of two examples with `1 × 1` maps,
`p = 1`: predicted counts `[2, 7]`, true density maps summing to `[2, 7]`. -/
theorem losses_nonneg_and_count_loss_zero_iff_witness :
    1 ≤ 1 ∧ ([2, 7] : T1).length = ([[[2]], [[7]]] : T3).length ∧
    (0 ≤ density_loss 1 [[[1]], [[1]]] [[[2]], [[7]]] ∧
     0 ≤ count_loss 1 [2, 7] [[[2]], [[7]]] ∧
     (count_loss 1 [2, 7] [[[2]], [[7]]] = 0 ↔
       ∀ pr ∈ ([2, 7] : T1).zip (true_counts [[[2]], [[7]]]), pr.1 = pr.2)) :=
  ⟨le_refl 1, by decide,
    losses_nonneg_and_count_loss_zero_iff 1 [[[1]], [[1]]] [[[2]], [[7]]] [2, 7]
      (le_refl 1) (by decide)⟩

/-! ## Running Scalars and periodic reporting (C1)

Each training script accumulates per-batch scalar metric values in
`running_scalars` and batch sizes in `running_example_count`; every
`summary_step_period` steps (skipping step 0) it emits
`running_scalar / running_example_count` for every metric.  The state below
tracks one metric's trajectory; a batch is a pair of its scalar contribution
and its example count. -/

structure ReportState where
  runningScalar : ℚ
  runningExampleCount : ℕ
  step : ℕ
  emitted : List ℚ
deriving DecidableEq

/-- One training step of the reporting machinery of src/train_cnn.py:103-114
and src/train_srgan.py:181-194: accumulate, and at a flush step emit the
quotient and reset both the scalar sum and the example count. -/
def reportStepReset (period : ℕ) (st : ReportState) (b : ℚ × ℕ) : ReportState :=
  let s := st.runningScalar + b.1
  let c := st.runningExampleCount + b.2
  if st.step % period = 0 ∧ st.step ≠ 0 then
    ⟨0, 0, st.step + 1, st.emitted ++ [s / (c : ℚ)]⟩
  else
    ⟨s, c, st.step + 1, st.emitted⟩

/-- One training step of the reporting machinery of src/train_gan.py:103-120:
identical, except that `running_example_count` is never reset (the script has
no `running_example_count = 0` statement). -/
def reportStepGan (period : ℕ) (st : ReportState) (b : ℚ × ℕ) : ReportState :=
  let s := st.runningScalar + b.1
  let c := st.runningExampleCount + b.2
  if st.step % period = 0 ∧ st.step ≠ 0 then
    ⟨0, c, st.step + 1, st.emitted ++ [s / (c : ℚ)]⟩
  else
    ⟨s, c, st.step + 1, st.emitted⟩

/-- The reporting trajectory of src/train_cnn.py (and src/train_srgan.py)
over a list of batches, starting from a fresh run. -/
def train_cnn_report (period : ℕ) (batches : List (ℚ × ℕ)) : ReportState :=
  batches.foldl (reportStepReset period) ⟨0, 0, 0, []⟩

/-- The reporting trajectory of src/train_gan.py over a list of batches. -/
def train_gan_report (period : ℕ) (batches : List (ℚ × ℕ)) : ReportState :=
  batches.foldl (reportStepGan period) ⟨0, 0, 0, []⟩

/-! Spec side: flushes occur at steps `period, 2·period, …` that fall inside
the run; the value the claim requires for the `k`-th flush is the sum of the
contributions accumulated since the previous flush divided by the number of
examples processed since the previous flush. -/

/-- Number of flushes during a run of `n` steps. -/
def flushCount (period n : ℕ) : ℕ :=
  if n = 0 then 0 else (n - 1) / period

/-- Index of the first batch belonging to the `k`-th reporting window
(`k ≥ 1`): the batch right after the previous flush, or the start of the run
for the first window. -/
def windowLow (period k : ℕ) : ℕ :=
  if k = 1 then 0 else (k - 1) * period + 1

/-- The batches of the `k`-th reporting window: everything after the previous
flush up to and including the flush step `k·period` itself. -/
def windowBatches (period : ℕ) (batches : List (ℚ × ℕ)) (k : ℕ) : List (ℚ × ℕ) :=
  (batches.take (k * period + 1)).drop (windowLow period k)

/-- The mean the claim requires for the `k`-th flush: window sum over window
example count. -/
def windowMean (period : ℕ) (batches : List (ℚ × ℕ)) (k : ℕ) : ℚ :=
  ((windowBatches period batches k).map Prod.fst).sum
    / (((windowBatches period batches k).map Prod.snd).sum : ℚ)

/-- All means the claim requires a run to emit, flush by flush. -/
def specEmitted (period : ℕ) (batches : List (ℚ × ℕ)) : List ℚ :=
  (List.range (flushCount period batches.length)).map (fun j => windowMean period batches (j + 1))

/-- C1 fails on src/train_gan.py: with `summary_step_period = 1` and three
batches of one example each contributing scalar 1, the flush at step 2 emits
`1/3` (the example count was never reset, so the divisor is the cumulative
count 3), while the claim requires the window mean `1/1 = 1`.  The
cnn/srgan reporting (which resets both accumulators) does emit the window
means. -/
theorem train_gan_flush_mean_uses_stale_example_count :
    (train_gan_report 1 [(1, 1), (1, 1), (1, 1)]).emitted = [1, 1/3] ∧
    (train_cnn_report 1 [(1, 1), (1, 1), (1, 1)]).emitted = [1, 1] ∧
    specEmitted 1 [(1, 1), (1, 1), (1, 1)] = [1, 1] ∧
    (train_gan_report 1 [(1, 1), (1, 1), (1, 1)]).emitted
      ≠ specEmitted 1 [(1, 1), (1, 1), (1, 1)] := by
  norm_num [train_gan_report, train_cnn_report, reportStepGan, reportStepReset,
    specEmitted, flushCount, windowMean, windowBatches, windowLow, List.range_succ]

/-! ## The periodic validation pass (C2)

At each reporting point the scripts run a pass computing the same density and
count losses on a discriminator output, accumulate them into validation
Running Scalars, and flush each as its sum divided by
`len(validation_dataset)`.  src/train_cnn.py:115-138 and
src/train_srgan.py:195-213 iterate `validation_dataset_loader`;
src/train_gan.py:121-135 iterates `train_dataset_loader` instead (its
`validation_dataset_loader`, built at line 32, is never used), while still
dividing by `len(validation_dataset)`.

The discriminator is external to the sources and enters as a function from
images to (predicted densities, predicted counts); a batch is (images,
labels). -/

/-- Accumulated validation Running Scalars (density loss sum, count loss sum)
over the batches of whichever loader the pass iterates. -/
def validation_scalars (p : ℕ) (D : T3 → T3 × T1) (batches : List (T3 × T3)) : ℚ × ℚ :=
  batches.foldl
    (fun acc b => (acc.1 + density_loss p (D b.1).1 b.2, acc.2 + count_loss p (D b.1).2 b.2))
    (0, 0)

/-- The validation flush of src/train_srgan.py:195-213 (and, with an extra
predictor metric, src/train_cnn.py:115-138): full pass over the validation
loader, divisor `len(validation_dataset)`. -/
def train_srgan_validation_flush (p : ℕ) (D : T3 → T3 × T1)
    (trainBatches validationBatches : List (T3 × T3)) (validationSize : ℕ) : ℚ × ℚ :=
  ((validation_scalars p D validationBatches).1 / (validationSize : ℚ),
   (validation_scalars p D validationBatches).2 / (validationSize : ℚ))

/-- The validation flush of src/train_gan.py:121-135: the pass iterates
`train_dataset_loader`, yet the divisor is `len(validation_dataset)`. -/
def train_gan_validation_flush (p : ℕ) (D : T3 → T3 × T1)
    (trainBatches validationBatches : List (T3 × T3)) (validationSize : ℕ) : ℚ × ℚ :=
  ((validation_scalars p D trainBatches).1 / (validationSize : ℚ),
   (validation_scalars p D trainBatches).2 / (validationSize : ℚ))

/-- Spec side: one full pass over the dataset loaded for the 'validation'
split, each scalar flushed as its accumulated sum over the validation set
divided by the validation set size. -/
def validation_flush_spec (p : ℕ) (D : T3 → T3 × T1)
    (validationBatches : List (T3 × T3)) (validationSize : ℕ) : ℚ × ℚ :=
  ((validation_scalars p D validationBatches).1 / (validationSize : ℚ),
   (validation_scalars p D validationBatches).2 / (validationSize : ℚ))

/-- C2 fails on src/train_gan.py: with a discriminator predicting all zeros,
one training batch whose label map sums to 3 and one validation batch whose
label map sums to 0 (validation set size 1), the gan variant flushes
`(3, 3)` — the losses of the *training* loader pass — where the claim
requires `(0, 0)`, the full-validation-set means.  The srgan variant agrees
with the claim on the same input. -/
theorem train_gan_validation_pass_iterates_train_loader :
    train_gan_validation_flush 1 (fun _ => ([[[0]]], [0]))
        [([[[5]]], [[[3]]])] [([[[7]]], [[[0]]])] 1 = (3, 3) ∧
    validation_flush_spec 1 (fun _ => ([[[0]]], [0])) [([[[7]]], [[[0]]])] 1 = (0, 0) ∧
    train_srgan_validation_flush 1 (fun _ => ([[[0]]], [0]))
        [([[[5]]], [[[3]]])] [([[[7]]], [[[0]]])] 1 = (0, 0) := by
  norm_num [train_gan_validation_flush, train_srgan_validation_flush, validation_flush_spec,
    validation_scalars, density_loss, count_loss, true_counts, t1mean, t2sum1, t3sum1,
    t3map, t3zip, colSums]

/-! ## Checkpoint scheduling (C3)

src/train_cnn.py:141-145 and src/train_srgan.py:216-220 run
`while epoch < number_of_epochs`, increment `epoch` after the inner loop,
call `save_trainer(..., prefix='discriminator')` and
`save_trainer(..., prefix='generator')` whenever
`epoch != 0 and epoch % save_epoch_period == 0`, and call both once more
unconditionally after the loop.  src/train_gan.py contains no `save_trainer`
call at all.  A save event records the role tag and the epoch at which the
save happens (`save_trainer` additionally serialises the network parameters,
optimizer state and step counter; that serialisation lives in model.py,
outside these sources). -/

abbrev SaveEvent := String × ℕ

/-- The save events of the epoch loop of src/train_cnn.py:72-145 /
src/train_srgan.py:110-220, with `r` epochs left to run from epoch counter
`epoch`: the in-loop periodic saves plus the unconditional final save pair. -/
def savesLoopAux (period : ℕ) : ℕ → ℕ → List SaveEvent
  | 0, epoch => [("discriminator", epoch), ("generator", epoch)]
  | r + 1, epoch =>
    (if epoch + 1 ≠ 0 ∧ (epoch + 1) % period = 0
      then [("discriminator", epoch + 1), ("generator", epoch + 1)] else [])
      ++ savesLoopAux period r (epoch + 1)

/-- Save events of a full src/train_cnn.py run from a fresh start. -/
def train_cnn_saves (numberOfEpochs period : ℕ) : List SaveEvent :=
  savesLoopAux period numberOfEpochs 0

/-- Save events of a full src/train_srgan.py run from a fresh start. -/
def train_srgan_saves (numberOfEpochs period : ℕ) : List SaveEvent :=
  savesLoopAux period numberOfEpochs 0

/-- The epoch loop of src/train_gan.py:64-140: the body trains and steps the
schedulers but performs no save, and nothing is saved after the loop. -/
def ganSavesLoopAux : ℕ → ℕ → List SaveEvent
  | 0, _ => []
  | r + 1, epoch => [] ++ ganSavesLoopAux r (epoch + 1)

/-- Save events of a full src/train_gan.py run. -/
def train_gan_saves (numberOfEpochs : ℕ) : List SaveEvent :=
  ganSavesLoopAux numberOfEpochs 0

/-- What the claim requires of a run's save events: a discriminator and a
generator save at every epoch (in range) that is a multiple of
`save_epoch_period`, plus an unconditional pair at the final epoch. -/
def checkpointClaim (events : List SaveEvent) (numberOfEpochs period : ℕ) : Prop :=
  (∀ e, 0 < e → e ≤ numberOfEpochs → e % period = 0 →
    ("discriminator", e) ∈ events ∧ ("generator", e) ∈ events) ∧
  ("discriminator", numberOfEpochs) ∈ events ∧ ("generator", numberOfEpochs) ∈ events

/-- C3 as stated is false: src/train_gan.py is a training-loop variant, and a
one-epoch run with `save_epoch_period = 1` produces no save event at all —
in particular no end-of-training save. -/
theorem train_gan_never_checkpoints :
    ¬ checkpointClaim (train_gan_saves 1) 1 1 := by
  intro h
  have := h.2.1
  simp [train_gan_saves, ganSavesLoopAux] at this

theorem savesLoopAux_final_mem (period : ℕ) (r epoch : ℕ) :
    ("discriminator", epoch + r) ∈ savesLoopAux period r epoch ∧
    ("generator", epoch + r) ∈ savesLoopAux period r epoch := by
  induction r generalizing epoch with
  | zero => simp [savesLoopAux]
  | succ r ih =>
    have h := ih (epoch + 1)
    constructor
    · apply List.mem_append_right
      have : epoch + (r + 1) = epoch + 1 + r := by omega
      rw [this]
      exact h.1
    · apply List.mem_append_right
      have : epoch + (r + 1) = epoch + 1 + r := by omega
      rw [this]
      exact h.2

theorem savesLoopAux_periodic_mem (period : ℕ) (r epoch e : ℕ)
    (h1 : epoch < e) (h2 : e ≤ epoch + r) (h3 : e % period = 0) :
    ("discriminator", e) ∈ savesLoopAux period r epoch ∧
    ("generator", e) ∈ savesLoopAux period r epoch := by
  induction r generalizing epoch with
  | zero => omega
  | succ r ih =>
    by_cases he : e = epoch + 1
    · subst he
      have hcond : epoch + 1 ≠ 0 ∧ (epoch + 1) % period = 0 := ⟨by omega, h3⟩
      constructor
      · apply List.mem_append_left
        rw [if_pos hcond]
        simp
      · apply List.mem_append_left
        rw [if_pos hcond]
        simp
    · have h := ih (epoch + 1) (by omega) (by omega)
      exact ⟨List.mem_append_right _ h.1, List.mem_append_right _ h.2⟩

/-- C3 amended: the cnn and srgan training loops persist discriminator and
generator trainer state at every epoch that is a multiple of
`save_epoch_period` and unconditionally once more at the end of training; the
train_gan.py variant never checkpoints. -/
theorem cnn_srgan_checkpoint_schedule (numberOfEpochs period : ℕ)
    (_hperiod : 0 < period) :
    checkpointClaim (train_cnn_saves numberOfEpochs period) numberOfEpochs period ∧
    checkpointClaim (train_srgan_saves numberOfEpochs period) numberOfEpochs period ∧
    train_gan_saves numberOfEpochs = [] := by
  have hclaim : checkpointClaim (savesLoopAux period numberOfEpochs 0) numberOfEpochs period := by
    refine ⟨fun e he1 he2 he3 => ?_, ?_, ?_⟩
    · exact savesLoopAux_periodic_mem period numberOfEpochs 0 e (by omega) (by omega) he3
    · simpa using (savesLoopAux_final_mem period numberOfEpochs 0).1
    · simpa using (savesLoopAux_final_mem period numberOfEpochs 0).2
  refine ⟨hclaim, hclaim, ?_⟩
  have hgan : ∀ r epoch, ganSavesLoopAux r epoch = [] := by
    intro r
    induction r with
    | zero => intro epoch; rfl
    | succ r ih => intro epoch; simpa [ganSavesLoopAux] using ih (epoch + 1)
  exact hgan numberOfEpochs 0

/-- Witness for the amended C3 at a concrete two-epoch run with
`save_epoch_period = 1`. -/
theorem cnn_srgan_checkpoint_schedule_witness :
    0 < 1 ∧
    (checkpointClaim (train_cnn_saves 2 1) 2 1 ∧
     checkpointClaim (train_srgan_saves 2 1) 2 1 ∧
     train_gan_saves 2 = []) :=
  ⟨Nat.one_pos, cnn_srgan_checkpoint_schedule 2 1 Nat.one_pos⟩

/-! ## Console commands and the quit protocol (C5)

src/interface.py delivers operator commands over a multiprocessing queue to
the network process it spawned.  The process class that consumes the queue
(the `network_class` handed to `Interface`) is not among the sources — only
its caller is — so the consuming side is modelled from the spec below. -/

inductive ConsoleMsg where
  | save
  | quit
  | changeLearningRate (value : ℚ)
deriving DecidableEq

inductive RunEvent where
  | stepCompleted (i : ℕ)
  | checkpointWritten
  | learningRateSet (value : ℚ)
  | terminated
deriving DecidableEq

/-- Modelled from the spec: acting on the pending console messages at a safe
point between steps — `save` checkpoints and continues, `quit` checkpoints
exactly once and terminates the process (the remainder of the run is
dropped), a learning-rate change updates the optimizer and continues. -/
def actOnMsgs : List ConsoleMsg → List RunEvent → List RunEvent
  | [], rest => rest
  | ConsoleMsg.save :: ms, rest => RunEvent.checkpointWritten :: actOnMsgs ms rest
  | ConsoleMsg.quit :: _, _ => [RunEvent.checkpointWritten, RunEvent.terminated]
  | ConsoleMsg.changeLearningRate v :: ms, rest => RunEvent.learningRateSet v :: actOnMsgs ms rest

/-- Modelled from the spec: the training process completes each step in full,
then polls the message channel once per step and acts before continuing; a
quit request is honored only between steps.  `delivery i` is the list of
messages that arrived during step `i`; at the natural end of the run the
loop checkpoints unconditionally. -/
def runSteps (delivery : ℕ → List ConsoleMsg) : ℕ → ℕ → List RunEvent
  | 0, _ => [RunEvent.checkpointWritten]
  | r + 1, i => RunEvent.stepCompleted i :: actOnMsgs (delivery i) (runSteps delivery r (i + 1))

/-- Modelled from the spec: a synthetic `n`-step run under a given message
delivery schedule. -/
def syntheticRun (n : ℕ) (delivery : ℕ → List ConsoleMsg) : List RunEvent :=
  runSteps delivery n 0

/-- A delivery schedule putting a single `quit` on the channel during
step `k`. -/
def quitAt (k : ℕ) : ℕ → List ConsoleMsg :=
  fun i => if i = k then [ConsoleMsg.quit] else []

theorem runSteps_quitAt (k : ℕ) : ∀ r i, i ≤ k → k < i + r →
    runSteps (quitAt k) r i
      = ((List.range' i (k - i + 1)).map RunEvent.stepCompleted)
        ++ [RunEvent.checkpointWritten, RunEvent.terminated] := by
  intro r
  induction r with
  | zero => intro i h1 h2; omega
  | succ r ih =>
    intro i h1 h2
    by_cases hik : i = k
    · subst hik
      simp [runSteps, quitAt, actOnMsgs, List.range']
    · have hlt : i < k := by omega
      have hrw := ih (i + 1) (by omega) (by omega)
      have harith : k - i + 1 = (k - (i + 1) + 1) + 1 := by omega
      rw [runSteps, quitAt, if_neg hik]
      simp only [actOnMsgs]
      rw [hrw, harith]
      conv_rhs => rw [List.range'_succ]
      simp [List.range'_succ]

/-- C5: when a single `quit` is delivered during step `k` of a synthetic
10-step run, the run completes the in-flight step `k` (and every earlier
step), then writes exactly one checkpoint and terminates — nothing runs
after the checkpoint and no step is cut short. -/
theorem quit_checkpoints_once_after_inflight_step (k : ℕ) (hk : k < 10) :
    syntheticRun 10 (quitAt k)
      = ((List.range (k + 1)).map RunEvent.stepCompleted)
        ++ [RunEvent.checkpointWritten, RunEvent.terminated] ∧
    (syntheticRun 10 (quitAt k)).count RunEvent.checkpointWritten = 1 := by
  have h := runSteps_quitAt k 10 0 (by omega) (by omega)
  simp only [Nat.sub_zero] at h
  have heq : syntheticRun 10 (quitAt k)
      = ((List.range (k + 1)).map RunEvent.stepCompleted)
        ++ [RunEvent.checkpointWritten, RunEvent.terminated] := by
    rw [syntheticRun, h, List.range_eq_range' (k + 1)]
  refine ⟨heq, ?_⟩
  rw [heq, List.count_append]
  have hzero : ((List.range (k + 1)).map RunEvent.stepCompleted).count
      RunEvent.checkpointWritten = 0 := by
    rw [List.count_eq_zero]
    intro hmem
    obtain ⟨i, _, hcontra⟩ := List.mem_map.mp hmem
    exact RunEvent.noConfusion hcontra
  rw [hzero]
  rfl

/-- Witness for C5 at `k = 3`. -/
theorem quit_checkpoints_once_after_inflight_step_witness :
    3 < 10 ∧
    (syntheticRun 10 (quitAt 3)
      = ((List.range 4).map RunEvent.stepCompleted)
        ++ [RunEvent.checkpointWritten, RunEvent.terminated] ∧
     (syntheticRun 10 (quitAt 3)).count RunEvent.checkpointWritten = 1) :=
  ⟨by omega, quit_checkpoints_once_after_inflight_step 3 (by omega)⟩

/-! ## The interactive console's command recognition (C8)

`Interface.train` (src/interface.py:15-34) reads one line of operator input
per iteration.  Python strings are embedded as lists of characters; an
action records what the branch enqueues on the message queue, whether it
joins the network process, and whether it leaves the interaction loop. -/

structure ConsoleAction where
  enqueued : List (List Char)
  joinsNetwork : Bool
  leavesLoop : Bool
deriving DecidableEq

/-- `self.queue.put('save')`'s message. -/
def msgSave : List Char := ['s', 'a', 'v', 'e']

/-- `self.queue.put('quit')`'s message. -/
def msgQuit : List Char := ['q', 'u', 'i', 't']

/-- `self.queue.put('change learning rate')`'s message. -/
def msgChangeLearningRate : List Char :=
  ['c', 'h', 'a', 'n', 'g', 'e', ' ', 'l', 'e', 'a', 'r', 'n', 'i', 'n', 'g',
   ' ', 'r', 'a', 't', 'e']

/-- One iteration of the interaction loop of src/interface.py:20-33: compare
the input against `'s'` and `'q'`, then test `user_input.startswith('l ')`
(embedded as the first two characters being `l` and a space) and enqueue the
remainder `user_input[2:]`; any other input enqueues nothing and the loop
continues. -/
def interfaceTrainStep (userInput : List Char) : ConsoleAction :=
  if userInput = ['s'] then
    ⟨[msgSave], false, false⟩
  else if userInput = ['q'] then
    ⟨[msgQuit], true, true⟩
  else if userInput.take 2 = ['l', ' '] then
    ⟨[msgChangeLearningRate, userInput.drop 2], false, false⟩
  else
    ⟨[], false, false⟩

/-- C8: the interaction loop recognizes exactly three commands — `'s'`
enqueues `'save'` and continues, `'q'` enqueues `'quit'`, joins the network
process and leaves the loop, an input starting with `'l '` enqueues
`'change learning rate'` followed by the rest of the line, and every other
input enqueues nothing and continues. -/
theorem interface_recognizes_three_commands (userInput : List Char) :
    (userInput = ['s'] → interfaceTrainStep userInput = ⟨[msgSave], false, false⟩) ∧
    (userInput = ['q'] → interfaceTrainStep userInput = ⟨[msgQuit], true, true⟩) ∧
    (userInput ≠ ['s'] → userInput ≠ ['q'] → userInput.take 2 = ['l', ' '] →
      interfaceTrainStep userInput
        = ⟨[msgChangeLearningRate, userInput.drop 2], false, false⟩) ∧
    (userInput ≠ ['s'] → userInput ≠ ['q'] → userInput.take 2 ≠ ['l', ' '] →
      interfaceTrainStep userInput = ⟨[], false, false⟩) := by
  refine ⟨fun h => ?_, fun h => ?_, fun h1 h2 h3 => ?_, fun h1 h2 h3 => ?_⟩
  · rw [h]; rfl
  · rw [h]; rfl
  · rw [interfaceTrainStep, if_neg h1, if_neg h2, if_pos h3]
  · rw [interfaceTrainStep, if_neg h1, if_neg h2, if_neg h3]

/-- Witness for C8: the learning-rate command `'l 0.5'` enqueues the command
message and the value `'0.5'`; the malformed input `'x'` enqueues nothing. -/
theorem interface_recognizes_three_commands_witness :
    interfaceTrainStep ['l', ' ', '0', '.', '5']
      = ⟨[msgChangeLearningRate, ['0', '.', '5']], false, false⟩ ∧
    interfaceTrainStep ['x'] = ⟨[], false, false⟩ :=
  ⟨(interface_recognizes_three_commands ['l', ' ', '0', '.', '5']).2.2.1
      (by decide) (by decide) (by decide),
   (interface_recognizes_three_commands ['x']).2.2.2
      (by decide) (by decide) (by decide)⟩

/-! ## The gradient penalty (C7)

src/train_srgan.py:154-165: `gradients` has the shape of the interpolated
input images, (batch, channel, height, width);
`gradient_penalty = ((gradients.norm(dim=1) - 1) ** 2).mean() *
settings.gradient_penalty_multiplier`.  `norm(dim=1)` takes the Euclidean
norm of each dimension-1 (channel) slice, yielding a (batch, height, width)
tensor, and `.mean()` averages over all of its entries.  Norms require real
arithmetic. -/

/-- A 2-D real tensor (height, width). -/
abbrev Map2R : Type := List (List ℝ)

/-- A rank-4 real tensor (batch, channel, height, width), the shape of the
interpolated image gradients. -/
abbrev T4R : Type := List (List Map2R)

/-- Elementwise sum of two matrices. -/
def addMap2R (a b : Map2R) : Map2R :=
  List.zipWith (List.zipWith (· + ·)) a b

/-- Elementwise square of a matrix. -/
def sqMap2R (m : Map2R) : Map2R :=
  m.map (fun r => r.map (fun x => x ^ 2))

/-- Sum of the squares of one batch element's channels, pointwise over
(height, width). -/
def channelSqSum : List Map2R → Map2R
  | [] => []
  | c :: cs => (cs.map sqMap2R).foldl addMap2R (sqMap2R c)

/-- `t.norm(dim=1)` for one batch element: the per-(height, width) Euclidean
norm across the channel dimension. -/
noncomputable def normDim1 (cube : List Map2R) : Map2R :=
  (channelSqSum cube).map (fun r => r.map Real.sqrt)

/-- `t.mean()` over a flat list of reals. -/
noncomputable def meanR (l : List ℝ) : ℝ :=
  l.sum / l.length

/-- `((gradients.norm(dim=1) - 1) ** 2).mean() * multiplier`, exactly as at
src/train_srgan.py:164. -/
noncomputable def gradient_penalty (multiplier : ℝ) (gradients : T4R) : ℝ :=
  meanR ((gradients.map
      (fun cube => ((normDim1 cube).map (fun r => r.map (fun n => (n - 1) ^ 2))).flatten)).flatten)
    * multiplier

/-- The Euclidean (Frobenius) norm of one batch element's whole gradient:
the claim's reading of "the norm of the gradient". -/
noncomputable def frobeniusNorm (cube : List Map2R) : ℝ :=
  Real.sqrt ((cube.map (fun m => (sqMap2R m).flatten.sum)).sum)

/-- The penalty the claim describes: multiplier times the batch mean of
(per-example gradient norm − 1)². -/
noncomputable def gradient_penalty_claim (multiplier : ℝ) (gradients : T4R) : ℝ :=
  meanR (gradients.map (fun cube => (frobeniusNorm cube - 1) ^ 2)) * multiplier

/-- A one-element batch whose gradient (2 channels, 1 × 2 spatial) has unit
Euclidean norm as a whole, but whose channel slices have norms 1 and 0. -/
def gpCube : List Map2R := [[[1, 0]], [[0, 0]]]

/-- C7 as stated is false: on `gpCube` the whole gradient has unit norm, so
the claim makes the penalty `0`, yet the code averages
`(channel-slice norm − 1)²` over every (batch, height, width) position and
yields `1/2`. -/
theorem gradient_penalty_is_not_per_example_norm_penalty :
    frobeniusNorm gpCube = 1 ∧
    gradient_penalty 1 [gpCube] = 1 / 2 ∧
    gradient_penalty_claim 1 [gpCube] = 0 ∧
    gradient_penalty 1 [gpCube] ≠ gradient_penalty_claim 1 [gpCube] := by
  have hf : frobeniusNorm gpCube = 1 := by
    simp [frobeniusNorm, gpCube, sqMap2R]
  have hcode : gradient_penalty 1 [gpCube] = 1 / 2 := by
    simp [gradient_penalty, gpCube, normDim1, channelSqSum, sqMap2R, addMap2R, meanR,
      Real.sqrt_one, Real.sqrt_zero]
  have hclaim : gradient_penalty_claim 1 [gpCube] = 0 := by
    simp [gradient_penalty_claim, meanR, hf]
  refine ⟨hf, hcode, hclaim, ?_⟩
  rw [hcode, hclaim]
  norm_num

/-- C7 amended: the penalty is the multiplier times the mean over every
(batch, height, width) position of (channel-slice norm − 1)²; in particular
it vanishes whenever every channel-slice norm of every gradient in the batch
equals 1. -/
theorem gradient_penalty_zero_of_unit_slice_norms (multiplier : ℝ) (gradients : T4R)
    (h : ∀ cube ∈ gradients, ∀ row ∈ normDim1 cube, ∀ n ∈ row, n = 1) :
    gradient_penalty multiplier gradients = 0 := by
  unfold gradient_penalty
  have hzero : ∀ x ∈ (gradients.map
      (fun cube => ((normDim1 cube).map (fun r => r.map (fun n => (n - 1) ^ 2))).flatten)).flatten,
      x = 0 := by
    intro x hx
    rw [List.mem_flatten] at hx
    obtain ⟨l, hl, hxl⟩ := hx
    obtain ⟨cube, hcube, rfl⟩ := List.mem_map.mp hl
    rw [List.mem_flatten] at hxl
    obtain ⟨r', hr', hxr⟩ := hxl
    obtain ⟨row, hrow, rfl⟩ := List.mem_map.mp hr'
    obtain ⟨n, hn, rfl⟩ := List.mem_map.mp hxr
    rw [h cube hcube row hrow n hn]
    ring
  rw [show meanR ((gradients.map
      (fun cube => ((normDim1 cube).map (fun r => r.map (fun n => (n - 1) ^ 2))).flatten)).flatten) = 0
    from by rw [meanR, List.sum_eq_zero hzero, zero_div]]
  ring

/-- Witness for the amended C7: a gradient with channels `[[1]]` and `[[0]]`
has the single channel-slice norm `1`, and the penalty vanishes for
multiplier `2`. -/
theorem gradient_penalty_zero_of_unit_slice_norms_witness :
    (∀ cube ∈ ([[[[1]], [[0]]]] : T4R), ∀ row ∈ normDim1 cube, ∀ n ∈ row, n = 1) ∧
    gradient_penalty 2 [[[[1]], [[0]]]] = 0 := by
  have h : ∀ cube ∈ ([[[[1]], [[0]]]] : T4R), ∀ row ∈ normDim1 cube, ∀ n ∈ row, n = 1 := by
    intro cube hcube row hrow n hn
    simp only [List.mem_singleton] at hcube
    subst hcube
    simp [normDim1, channelSqSum, sqMap2R, addMap2R] at hrow
    subst hrow
    simp at hn
    rw [hn]
  exact ⟨h, gradient_penalty_zero_of_unit_slice_norms 2 [[[[1]], [[0]]]] h⟩

/-! ## The Vatic annotation importer (C9)

`create_head_point_position_files_from_text_dump`
(src/vatic_importer.py:30-54) reads the text dump with `csv.reader` and, for
each row, computes `x = int((x0 + x1) / 2)` and `y = int((y0 + y1) / 2)`
where `x0 = row[1]`, `x1 = row[3]`, `y0 = row[2]`, `y1 = row[4]`.  csv rows
are lists of Python *strings*, so `x0 + x1` concatenates and the division by
2 is a `TypeError`.  Python's dynamic values are embedded as a sum type and
fallible operations return `Option`. -/

inductive PyVal where
  | intVal (n : ℤ)
  | strVal (s : List Char)
deriving DecidableEq

/-- Python `+`: numeric addition on two ints, concatenation on two strings,
`TypeError` otherwise. -/
def pyAdd : PyVal → PyVal → Option PyVal
  | PyVal.intVal a, PyVal.intVal b => some (PyVal.intVal (a + b))
  | PyVal.strVal a, PyVal.strVal b => some (PyVal.strVal (a ++ b))
  | _, _ => none

/-- Python `int(v / 2)`: on an int, exact halving truncated toward zero; on a
string, `/` is a `TypeError`. -/
def pyIntOfHalf : PyVal → Option ℤ
  | PyVal.intVal n => some (Int.tdiv n 2)
  | PyVal.strVal _ => none

/-- The per-row center computation of src/vatic_importer.py:37-41 on a csv
row (a list of string fields): `x0, x1 = row[1], row[3]`,
`y0, y1 = row[2], row[4]`, `x = int((x0 + x1) / 2)`,
`y = int((y0 + y1) / 2)`.  `none` models a raised exception. -/
def vaticRowMidpoint (row : List (List Char)) : Option (ℤ × ℤ) := do
  let x0 ← row[1]?
  let x1 ← row[3]?
  let y0 ← row[2]?
  let y1 ← row[4]?
  let sx ← pyAdd (PyVal.strVal x0) (PyVal.strVal x1)
  let x ← pyIntOfHalf sx
  let sy ← pyAdd (PyVal.strVal y0) (PyVal.strVal y1)
  let y ← pyIntOfHalf sy
  some (x, y)

/-- One decimal digit of an annotation coordinate. -/
def digitVal (c : Char) : Option ℕ :=
  if c.isDigit then some (c.toNat - '0'.toNat) else none

def parseNatAux : List Char → ℕ → Option ℕ
  | [], acc => some acc
  | c :: cs, acc =>
    match digitVal c with
    | some d => parseNatAux cs (acc * 10 + d)
    | none => none

/-- Parse a non-empty string of decimal digits. -/
def parseNat : List Char → Option ℕ
  | [] => none
  | c :: cs => parseNatAux (c :: cs) 0

/-- Spec side: the bounding-box center the claim describes — parse the four
coordinates numerically and take the midpoint of `(x0, x1)` and of
`(y0, y1)`. -/
def vaticRowCenterSpec (row : List (List Char)) : Option (ℤ × ℤ) := do
  let x0 ← row[1]?
  let x1 ← row[3]?
  let y0 ← row[2]?
  let y1 ← row[4]?
  let a ← parseNat x0
  let b ← parseNat x1
  let cv ← parseNat y0
  let d ← parseNat y1
  some (((a + b) / 2 : ℕ), ((cv + d) / 2 : ℕ))

/-- A concrete dump row: object id 0, box (10, 20)–(30, 40), frame 7. -/
def vaticRow0 : List (List Char) :=
  ["0".toList, "10".toList, "20".toList, "30".toList, "40".toList, "7".toList]

/-- C9 fails on the code: on `vaticRow0` the claim expects the center
`(20, 30)` to be appended, but the row computation concatenates the string
fields and then divides a string by 2 — a `TypeError`, so no point is ever
written (moreover the row loop iterates the `csv.reader` only after the
`with` block has closed the dump file, which already raises `ValueError`). -/
theorem vatic_row_center_raises_type_error :
    vaticRowMidpoint vaticRow0 = none ∧
    vaticRowCenterSpec vaticRow0 = some (20, 30) := by
  decide

/-! ## Trial-name cleanup (C10)

`clean_scientific_notation` (src/train_srgan.py:225-229) applies two regex
substitutions: `\.?0*e([+\-])0*([0-9])` → `e\g<1>\g<2>`, then `e\+` → `e`.
Both are embedded below with Python's leftmost, resume-after-match scanning
semantics; the bounded backtracking of `0*([0-9])` (the last zero can serve
as the digit) is resolved explicitly. -/

/-- Match `0*([0-9])` at the start of `t` with backtracking: greedy zeros
followed by a digit, or — when at least one zero was read and no digit
follows — all but the last zero, the last zero serving as the digit.
Returns the captured digit and the remainder. -/
def expDigitTail (t : List Char) : Option (Char × List Char) :=
  let zs := t.takeWhile (fun c => c = '0')
  match t.dropWhile (fun c => c = '0') with
  | d :: r => if d.isDigit then some (d, r) else if zs = [] then none else some ('0', d :: r)
  | [] => if zs = [] then none else some ('0', [])

/-- Match `\.?0*e([+\-])0*([0-9])` at the start of `s`: an optional dot,
greedy zeros, `e`, a sign, then `expDigitTail`.  Returns the captured sign
and digit and the remainder after the match. -/
def sciTryMatch (s : List Char) : Option (Char × Char × List Char) :=
  let s1 := match s with
    | '.' :: t => t
    | _ => s
  match s1.dropWhile (fun c => c = '0') with
  | 'e' :: c :: t =>
    if c = '+' ∨ c = '-' then
      match expDigitTail t with
      | some (d, r) => some (c, d, r)
      | none => none
    else none
  | _ => none

/-- `re.sub(r'\.?0*e([+\-])0*([0-9])', r'e\g<1>\g<2>', string)`: scan left to
right, replacing each match with `e`, the sign and the digit, resuming after
the consumed text.  The fuel is the string length; every step consumes at
least one character. -/
def sciSubFuel : ℕ → List Char → List Char
  | 0, s => s
  | _ + 1, [] => []
  | fuel + 1, c :: rest =>
    match sciTryMatch (c :: rest) with
    | some (sign, d, r) => 'e' :: sign :: d :: sciSubFuel fuel r
    | none => c :: sciSubFuel fuel rest

def sciSub (s : List Char) : List Char :=
  sciSubFuel s.length s

/-- `re.sub(r'e\+', r'e', string)`. -/
def ePlusSub : List Char → List Char
  | [] => []
  | 'e' :: '+' :: rest => 'e' :: ePlusSub rest
  | c :: rest => c :: ePlusSub rest

/-- `clean_scientific_notation` of src/train_srgan.py:225-229: the first
substitution followed by the second. -/
def cleanScientific (s : List Char) : List Char :=
  ePlusSub (sciSub s)

/-- C10 as stated is false: on `"e++"` the first cleaning yields `"e+"`
(the second substitution consumes `e+` and resumes after it, leaving the
second `+` glued to the emitted `e`), and cleaning again yields `"e"`. -/
theorem cleanScientific_not_idempotent :
    cleanScientific "e++".toList = "e+".toList ∧
    cleanScientific (cleanScientific "e++".toList) = "e".toList ∧
    cleanScientific (cleanScientific "e++".toList) ≠ cleanScientific "e++".toList := by
  decide

/-- C10 amended: re-cleaning is not idempotent on arbitrary strings (a second
pass can rewrite further, as on `"e++"`), but on the trial names this
repository generates — concretely the name built by the src/train_srgan.py
`__main__` block — a second cleaning changes nothing. -/
theorem cleanScientific_idempotent_on_generated_trial_name :
    cleanScientific
        "SRGAN C5 I5 fl1.000000e+00 ul1.000000e+00 lr1.000000e-05 gp loaded zbg0.000000e+00".toList
      = "SRGAN C5 I5 fl1e0 ul1e0 lr1e-5 gp loaded zbg0e0".toList ∧
    cleanScientific (cleanScientific
        "SRGAN C5 I5 fl1.000000e+00 ul1.000000e+00 lr1.000000e-05 gp loaded zbg0.000000e+00".toList)
      = cleanScientific
        "SRGAN C5 I5 fl1.000000e+00 ul1.000000e+00 lr1.000000e-05 gp loaded zbg0.000000e+00".toList := by
  decide

end Crowdnet
